import Mathlib

/-
Verification of the makeline-service order intake and status pipeline.

The HTTP handlers (`fetchOrders`, `getOrder`, `updateOrder`) are embedded
from src/main.go.  Each handler is modelled as a pure function from its
request inputs and the results of its collaborator calls (queue poll,
repository operations) to the HTTP response it produces together with a
trace of the repository calls it issued.  Go's `strconv.Atoi` /
`strconv.Itoa` / `strconv.FormatInt(_, 10)` are embedded as `goAtoi` /
`goItoa` over `Int` with the 64-bit range check made explicit.

The `Order` entity, the `Status` enumeration and the storage backends are
used by main.go but their Go definitions are not part of the tree; they
are modelled from the spec where a claim needs them (see the doc comments
starting "Modelled from the spec").
-/

set_option autoImplicit false

namespace Makeline

/-- Modelled from the spec: the integer-backed ordered status enumeration
`{New, Pending, Processing, Complete}` of the Order entity (its Go
definition is not under src/, only its uses in main.go). -/
inductive Status where
  | new
  | pending
  | processing
  | complete
deriving DecidableEq, Repr

/-- Modelled from the spec: the `Order` entity (its Go definition is not
under src/, only its uses in main.go): `orderId` is the string business
key, `status` the pipeline stage; the remaining payload fields (`items`,
`customerId`, `timePlaced`, ...) are opaque to the core and passed through
unchanged, collapsed here into a single opaque `payload` field. -/
structure Order where
  orderID : String
  status : Status
  payload : String
deriving DecidableEq, Repr

/-- Repository-layer failure conditions named by the spec: the duplicate-key
conflict signal of the underlying store, the not-found condition on
get/update, and any other storage failure. -/
inductive RepoError where
  | duplicateKey
  | notFound
  | other
deriving DecidableEq, Repr

/-- Failure of the non-blocking queue poll. -/
inductive QueueError where
  | pollFailure
deriving DecidableEq, Repr

/-- Numeric value of a decimal digit character. -/
def digitVal (c : Char) : Nat := c.toNat - 48

/-- Decimal interpretation of a character list: defined exactly when the
list is non-empty and all characters are digits. -/
def decDigits? (cs : List Char) : Option Nat :=
  if cs ≠ [] ∧ cs.all Char.isDigit then
    some (cs.foldl (fun acc c => acc * 10 + digitVal c) 0)
  else
    none

/-- Largest value of Go's 64-bit `int`. -/
def goIntMax : Nat := 9223372036854775807

/-- Embedding of Go's `strconv.Atoi` (= `ParseInt(s, 10, 0)` on a 64-bit
platform): an optional single leading `+` or `-` sign followed by one or
more decimal digits, rejecting anything else and values outside the
signed 64-bit range. -/
def goAtoi (s : String) : Option Int :=
  match s.data with
  | '+' :: rest =>
      (decDigits? rest).bind fun n =>
        if n ≤ goIntMax then some (n : Int) else none
  | '-' :: rest =>
      (decDigits? rest).bind fun n =>
        if n ≤ goIntMax + 1 then some (-(n : Int)) else none
  | cs =>
      (decDigits? cs).bind fun n =>
        if n ≤ goIntMax then some (n : Int) else none

/-- Embedding of Go's `strconv.Itoa` / `strconv.FormatInt(_, 10)`:
canonical decimal rendering of an integer. -/
def goItoa (i : Int) : String := toString i

/-- Intake stamp from src/main.go (fetchOrders, lines 77-80): the status of
a pulled message is overwritten with `Pending`. -/
def setPending (o : Order) : Order := { o with status := Status.pending }

/-- Response of the fetchOrders handler: an abort status code, or 200 with
the JSON array of pending orders. -/
inductive FetchResult where
  | status (code : Nat)
  | okOrders (orders : List Order)
deriving DecidableEq, Repr

/-- Trace of the repository calls issued by one fetchOrders invocation:
the batches passed to `InsertOrders`, and whether `GetPendingOrders`
was called. -/
structure FetchTrace where
  inserts : List (List Order)
  getPendingCalled : Bool
deriving DecidableEq, Repr

/-- Embedding of `fetchOrders` from src/main.go: poll the queue; on poll
failure abort 500; otherwise stamp every pulled order `Pending`, insert
the batch when non-empty (aborting 500 on insert failure), then return
all pending orders (aborting 500 on lookup failure). -/
def fetchOrders (queue : Except QueueError (List Order))
    (insertOrdersCall : List Order → Except RepoError Unit)
    (getPendingOrdersCall : Except RepoError (List Order)) :
    FetchResult × FetchTrace :=
  match queue with
  | .error _ => (.status 500, ⟨[], false⟩)
  | .ok newOrders =>
    let stamped := newOrders.map setPending
    if stamped.length > 0 then
      match insertOrdersCall stamped with
      | .error _ => (.status 500, ⟨[stamped], false⟩)
      | .ok _ =>
        match getPendingOrdersCall with
        | .error _ => (.status 500, ⟨[stamped], true⟩)
        | .ok pendingOrders => (.okOrders pendingOrders, ⟨[stamped], true⟩)
    else
      match getPendingOrdersCall with
      | .error _ => (.status 500, ⟨[], true⟩)
      | .ok pendingOrders => (.okOrders pendingOrders, ⟨[], true⟩)

/-- Response of the getOrder handler: an abort status code, or 200 with the
single order's JSON. -/
inductive GetOrderResult where
  | status (code : Nat)
  | okOrder (o : Order)
deriving DecidableEq, Repr

/-- Embedding of `getOrder` from src/main.go: parse the path id with Atoi
(400 on failure, no repository call), re-render it in decimal, query the
repository with the sanitized id (500 on any repository error), else 200
with the order.  The second component is the list of ids passed to
`GetOrder` on the repository. -/
def getOrder (idParam : String)
    (repoGetOrder : String → Except RepoError Order) :
    GetOrderResult × List String :=
  match goAtoi idParam with
  | none => (.status 400, [])
  | some id =>
    let sanitizedOrderId := goItoa id
    match repoGetOrder sanitizedOrderId with
    | .error _ => (.status 500, [sanitizedOrderId])
    | .ok o => (.okOrder o, [sanitizedOrderId])

/-- Response of the updateOrder handler: a bare status code (400, 500, or
202 with empty body). -/
inductive UpdateResult where
  | status (code : Nat)
deriving DecidableEq, Repr

/-- Embedding of `updateOrder` from src/main.go: bind the JSON body (400 on
failure), reject an empty orderId (400), reject any status other than
`Processing` or `Complete` (400), parse the orderId with Atoi (400 on
failure), re-render it in decimal, then update the repository (500 on
error, 202 on success).  The body is `none` when JSON binding fails; the
second component is the list of orders passed to `UpdateOrder` on the
repository. -/
def updateOrder (body : Option Order)
    (repoUpdateOrder : Order → Except RepoError Unit) :
    UpdateResult × List Order :=
  match body with
  | none => (.status 400, [])
  | some order =>
    if order.orderID = "" then (.status 400, [])
    else if order.status ≠ Status.processing ∧ order.status ≠ Status.complete then
      (.status 400, [])
    else
      match goAtoi order.orderID with
      | none => (.status 400, [])
      | some id =>
        let order' := { order with orderID := goItoa id }
        match repoUpdateOrder order' with
        | .error _ => (.status 500, [order'])
        | .ok _ => (.status 202, [order'])

/-- Modelled from the spec: the raw insert primitive of the underlying
store (the backend repository sources are not under src/): inserting a
record whose `orderId` is already present fails with the store's
duplicate-key conflict signal, otherwise the record is appended. -/
def rawInsert (store : List Order) (o : Order) : Except RepoError (List Order) :=
  if store.any (fun s => s.orderID = o.orderID) then .error .duplicateKey
  else .ok (store ++ [o])

/-- Modelled from the spec: insertion of one record by the backend's
`insertOrders`, with the idempotent-insert policy of spec section 4.3: the
duplicate-key condition from the underlying store is treated as
success-with-no-op for that record, not as an error. -/
def insertOne (store : List Order) (o : Order) : Except RepoError (List Order) :=
  match rawInsert store o with
  | .error .duplicateKey => .ok store
  | r => r

/-- Modelled from the spec: the backend repository's `insertOrders` (bulk
insert, sources not under src/): records are inserted in order, an error
on one record aborts the batch, and zero records is a no-op. -/
def insertOrders (store : List Order) : List Order → Except RepoError (List Order)
  | [] => .ok store
  | o :: rest =>
    match insertOne store o with
    | .error e => .error e
    | .ok store' => insertOrders store' rest

/-- Number of stored records carrying a given orderId. -/
def countId (store : List Order) (id : String) : Nat :=
  (store.filter (fun s => s.orderID = id)).length

/-- Invariant of the storage: the stored orderIds are pairwise distinct,
i.e. at most one stored record per orderId. -/
def nodupIds (store : List Order) : Prop :=
  (store.map Order.orderID).Nodup

instance (store : List Order) : Decidable (nodupIds store) :=
  inferInstanceAs (Decidable (store.map Order.orderID).Nodup)

/-- At-most-one-record-per-orderId, stated by counting. -/
def atMostOnePerId (store : List Order) : Prop :=
  ∀ id : String, countId store id ≤ 1

/-- Repository stub that accepts every update. -/
def updateRepoOk : Order → Except RepoError Unit := fun _ => Except.ok ()

/-- Repository stub whose update always fails. -/
def updateRepoErr : Order → Except RepoError Unit :=
  fun _ => Except.error RepoError.notFound

/-- Repository stub whose lookup always fails with not-found. -/
def getRepoErr : String → Except RepoError Order :=
  fun _ => Except.error RepoError.notFound

/-- Repository stub whose lookup always returns a fixed order. -/
def getRepoConst (o : Order) : String → Except RepoError Order :=
  fun _ => Except.ok o

/-- Repository stub that accepts every bulk insert. -/
def insertRepoOk : List Order → Except RepoError Unit := fun _ => Except.ok ()

/-- Repository stub whose bulk insert always fails. -/
def insertRepoErr : List Order → Except RepoError Unit :=
  fun _ => Except.error RepoError.other

/-- C2: the Status Update Operation (PUT /order) accepts a request's status
field if and only if it is exactly Processing or Complete: any request
whose status is any other value (including Pending and New) is rejected
with HTTP 400 and the repository update is never invoked; whenever the
repository update is invoked, the status was Processing or Complete; and
conversely a request with status Processing or Complete passes the status
gate: with a parseable orderId it reaches the repository update, and on
repository success it is accepted with 202. -/
theorem C2_status_gate :
    (∀ (order : Order) (repo : Order → Except RepoError Unit),
      order.status ≠ Status.processing → order.status ≠ Status.complete →
      updateOrder (some order) repo = (.status 400, [])) ∧
    (∀ (order : Order) (repo : Order → Except RepoError Unit),
      (updateOrder (some order) repo).2 ≠ [] →
      order.status = Status.processing ∨ order.status = Status.complete) ∧
    (∀ (order : Order) (repo : Order → Except RepoError Unit) (i : Int),
      (order.status = Status.processing ∨ order.status = Status.complete) →
      goAtoi order.orderID = some i →
      (updateOrder (some order) repo).2 = [{ order with orderID := goItoa i }]) ∧
    (∀ (order : Order) (repo : Order → Except RepoError Unit) (i : Int),
      (order.status = Status.processing ∨ order.status = Status.complete) →
      goAtoi order.orderID = some i →
      repo { order with orderID := goItoa i } = .ok () →
      updateOrder (some order) repo =
        (.status 202, [{ order with orderID := goItoa i }])) := by
  refine ⟨?_, ?_, ?_, ?_⟩
  · intro order repo h1 h2
    unfold updateOrder
    by_cases he : order.orderID = ""
    · simp [he]
    · simp [he, h1, h2]
  · intro order repo hne
    by_cases hs : order.status = Status.processing ∨ order.status = Status.complete
    · exact hs
    · exfalso
      push_neg at hs
      apply hne
      unfold updateOrder
      by_cases he : order.orderID = ""
      · simp [he]
      · simp [he, hs.1, hs.2]
  · intro order repo i hs hp
    have he : order.orderID ≠ "" := by
      intro he
      rw [he] at hp
      exact Option.noConfusion ((by decide : goAtoi "" = none) ▸ hp)
    have hstat : ¬(order.status ≠ Status.processing ∧ order.status ≠ Status.complete) := by
      rcases hs with h1 | h1 <;> simp [h1]
    unfold updateOrder
    simp only [if_neg he, if_neg hstat, hp]
    split <;> rfl
  · intro order repo i hs hp hr
    have he : order.orderID ≠ "" := by
      intro he
      rw [he] at hp
      exact Option.noConfusion ((by decide : goAtoi "" = none) ▸ hp)
    have hstat : ¬(order.status ≠ Status.processing ∧ order.status ≠ Status.complete) := by
      rcases hs with h1 | h1 <;> simp [h1]
    unfold updateOrder
    simp only [if_neg he, if_neg hstat, hp, hr]

/-- C2 witness: a request with status Pending is rejected with 400 and no
repository call, while one with status Processing passes the gate and is
accepted with 202 after the repository update. -/
theorem C2_status_gate_witness :
    updateOrder (some ⟨"1", Status.pending, "p"⟩) updateRepoOk = (.status 400, []) ∧
    updateOrder (some ⟨"1", Status.processing, "p"⟩) updateRepoOk =
      (.status 202, [⟨"1", Status.processing, "p"⟩]) :=
  ⟨C2_status_gate.1 ⟨"1", Status.pending, "p"⟩ updateRepoOk (by decide) (by decide),
   C2_status_gate.2.2.2 ⟨"1", Status.processing, "p"⟩ updateRepoOk 1
     (Or.inl rfl) (by decide) rfl⟩

/-- C8: for every PUT /order request, all validation (JSON binding,
non-empty orderId, allowed status, integer parse of orderId) completes
before any write: if any validation step fails the handler returns HTTP
400 and the repository UpdateOrder is never invoked. -/
theorem C8_validation_before_write :
    ∀ (body : Option Order) (repo : Order → Except RepoError Unit),
      (body = none ∨ ∃ order, body = some order ∧
        (order.orderID = "" ∨
         (order.status ≠ Status.processing ∧ order.status ≠ Status.complete) ∨
         goAtoi order.orderID = none)) →
      updateOrder body repo = (.status 400, []) := by
  intro body repo h
  rcases h with h | ⟨order, hb, hv⟩
  · subst h; rfl
  · subst hb
    unfold updateOrder
    rcases hv with he | ⟨h1, h2⟩ | hp
    · simp [he]
    · by_cases he : order.orderID = ""
      · simp [he]
      · simp [he, h1, h2]
    · by_cases he : order.orderID = ""
      · simp [he]
      · by_cases hs : order.status ≠ Status.processing ∧ order.status ≠ Status.complete
        · simp [he, hs.1, hs.2]
        · push_neg at hs
          simp only [he, if_false]
          by_cases h1 : order.status = Status.processing
          · simp [h1, hp]
          · simp [h1, hs h1, hp]

/-- C8 witness: a body that fails JSON binding yields 400 with no
repository call. -/
theorem C8_validation_before_write_witness :
    updateOrder none updateRepoOk = (.status 400, []) :=
  C8_validation_before_write none updateRepoOk (Or.inl rfl)

/-- C9: for every GET /order/\x7bid\x7d request, a path id that does not
parse as an integer yields HTTP 400 with no repository query; any
repository error (not-found included) yields HTTP 500; otherwise the
handler returns HTTP 200 with the single order. -/
theorem C9_getOrder_status_codes :
    (∀ (idParam : String) (repo : String → Except RepoError Order),
      goAtoi idParam = none → getOrder idParam repo = (.status 400, [])) ∧
    (∀ (idParam : String) (repo : String → Except RepoError Order)
       (i : Int) (e : RepoError),
      goAtoi idParam = some i → repo (goItoa i) = .error e →
      getOrder idParam repo = (.status 500, [goItoa i])) ∧
    (∀ (idParam : String) (repo : String → Except RepoError Order)
       (i : Int) (o : Order),
      goAtoi idParam = some i → repo (goItoa i) = .ok o →
      getOrder idParam repo = (.okOrder o, [goItoa i])) := by
  refine ⟨?_, ?_, ?_⟩
  · intro idParam repo h
    unfold getOrder
    simp [h]
  · intro idParam repo i e h hr
    unfold getOrder
    simp [h, hr]
  · intro idParam repo i o h hr
    unfold getOrder
    simp [h, hr]

/-- C9 witness: a not-found repository error on id 5 yields 500, and a
non-integer path id yields 400 without any repository query. -/
theorem C9_getOrder_status_codes_witness :
    getOrder "5" getRepoErr = (.status 500, ["5"]) ∧
    getOrder "abc" getRepoErr = (.status 400, []) :=
  ⟨C9_getOrder_status_codes.2.1 "5" getRepoErr 5 RepoError.notFound
      (by decide) rfl,
   C9_getOrder_status_codes.1 "abc" getRepoErr (by decide)⟩

/-- C10: for every GET /order/\x7bid\x7d request whose path id parses as an
integer, the repository is queried with the decimal re-rendering of the
parsed value rather than the raw path text; in particular "007" parses to
7 and is queried as "7", and the signed forms "-1" and "+7" are accepted
by the parser as -1 and 7. -/
theorem C10_getOrder_canonical_query :
    (∀ (idParam : String) (repo : String → Except RepoError Order) (i : Int),
      goAtoi idParam = some i → (getOrder idParam repo).2 = [goItoa i]) ∧
    goAtoi "007" = some 7 ∧ goItoa 7 = "7" ∧
    goAtoi "-1" = some (-1) ∧ goItoa (-1) = "-1" ∧
    goAtoi "+7" = some 7 := by
  refine ⟨?_, by decide, by decide, by decide, by decide, by decide⟩
  intro idParam repo i h
  unfold getOrder
  rcases hr : repo (goItoa i) with e | o <;> simp [h, hr]

/-- C10 witness: the path id "007" leads to a repository query for exactly
the canonical id "7". -/
theorem C10_getOrder_canonical_query_witness :
    (getOrder "007" getRepoErr).2 = ["7"] :=
  C10_getOrder_canonical_query.1 "007" getRepoErr 7 (by decide)

/-- Helper: any failed validation step in updateOrder yields 400 with no
repository call. -/
theorem updateOrder_reject_400 (order : Order) (repo : Order → Except RepoError Unit)
    (h : order.orderID = "" ∨
      (order.status ≠ Status.processing ∧ order.status ≠ Status.complete) ∨
      goAtoi order.orderID = none) :
    updateOrder (some order) repo = (.status 400, []) := by
  unfold updateOrder
  rcases h with he | ⟨h1, h2⟩ | hp
  · simp [he]
  · by_cases he : order.orderID = ""
    · simp [he]
    · simp [he, h1, h2]
  · by_cases he : order.orderID = ""
    · simp [he]
    · by_cases h1 : order.status = Status.processing
      · simp [he, h1, hp]
      · by_cases h2 : order.status = Status.complete
        · simp [he, h1, h2, hp]
        · simp [he, h1, h2]

/-- C3 counterexample: the orderId "-1" contains a character that is not a
digit, yet the PUT /order handler does not reject it: the request reaches
the repository update and returns 202. -/
theorem C3_digits_only_counterexample :
    ("-1".data.all Char.isDigit = false) ∧
    updateOrder (some ⟨"-1", Status.processing, "p"⟩) updateRepoOk =
      (.status 202, [⟨"-1", Status.processing, "p"⟩]) := by
  exact ⟨by decide, by decide⟩

/-- C3 amended: for every PUT /order request, an orderId that is empty or
not accepted by Go's Atoi integer parser (an optional leading sign
followed by decimal digits, within the signed 64-bit range) is rejected
with HTTP 400 and no repository call; only orderIds accepted by that
parser — which include signed forms such as "-1" — proceed to the
repository update. -/
theorem C3_amended_atoi_gate :
    (∀ (order : Order) (repo : Order → Except RepoError Unit),
      order.orderID = "" ∨ goAtoi order.orderID = none →
      updateOrder (some order) repo = (.status 400, [])) ∧
    (∀ (order : Order) (repo : Order → Except RepoError Unit),
      (updateOrder (some order) repo).2 ≠ [] →
      order.orderID ≠ "" ∧ ∃ i : Int, goAtoi order.orderID = some i) := by
  constructor
  · intro order repo h
    exact updateOrder_reject_400 order repo (h.imp id Or.inr)
  · intro order repo hne
    constructor
    · intro he
      apply hne
      rw [updateOrder_reject_400 order repo (Or.inl he)]
    · rcases hg : goAtoi order.orderID with _ | i
      · exfalso
        apply hne
        rw [updateOrder_reject_400 order repo (Or.inr (Or.inr hg))]
      · exact ⟨i, rfl⟩

/-- C3 amended witness: the orderId "12a" fails the integer parse and is
rejected with 400 and no repository call. -/
theorem C3_amended_atoi_gate_witness :
    updateOrder (some ⟨"12a", Status.processing, "p"⟩) updateRepoOk =
      (.status 400, []) :=
  C3_amended_atoi_gate.1 ⟨"12a", Status.processing, "p"⟩ updateRepoOk
    (Or.inr (by decide))

/-- C4: for every PUT /order request that passes validation, the orderId is
canonicalized by parsing it to an integer and re-rendering it as decimal
before the repository update is issued; in particular "007" parses to 7
and re-renders as "7". -/
theorem C4_updateOrder_canonicalizes :
    (∀ (order : Order) (repo : Order → Except RepoError Unit) (i : Int),
      goAtoi order.orderID = some i →
      (order.status = Status.processing ∨ order.status = Status.complete) →
      (updateOrder (some order) repo).2 = [{ order with orderID := goItoa i }]) ∧
    goAtoi "007" = some 7 ∧ goItoa 7 = "7" := by
  refine ⟨?_, by decide, by decide⟩
  intro order repo i h hs
  have he : order.orderID ≠ "" := by
    intro he
    rw [he] at h
    exact Option.noConfusion ((by decide : goAtoi "" = none) ▸ h)
  have hstat : ¬(order.status ≠ Status.processing ∧ order.status ≠ Status.complete) := by
    rcases hs with h1 | h1 <;> simp [h1]
  unfold updateOrder
  simp only [if_neg he, if_neg hstat, h]
  split <;> rfl

/-- C4 witness: updating order "007" with status Complete issues the
repository update against the canonical id "7". -/
theorem C4_updateOrder_canonicalizes_witness :
    (updateOrder (some ⟨"007", Status.complete, "p"⟩) updateRepoOk).2 =
      [⟨"7", Status.complete, "p"⟩] :=
  C4_updateOrder_canonicalizes.1 ⟨"007", Status.complete, "p"⟩ updateRepoOk 7
    (by decide) (Or.inr rfl)

/-- C5: for every batch pulled from the queue by GET /order/fetch, the
status of every pulled message is set to Pending before any insert: every
batch passed to the repository insert is the pulled batch with every
status overwritten to Pending. -/
theorem C5_stamp_pending :
    ∀ (batch : List Order) (ins : List Order → Except RepoError Unit)
      (gp : Except RepoError (List Order)) (l : List Order),
      l ∈ (fetchOrders (.ok batch) ins gp).2.inserts →
      l = batch.map setPending ∧ ∀ o ∈ l, o.status = Status.pending := by
  intro batch ins gp l hl
  have hstamp : ∀ o ∈ batch.map setPending, o.status = Status.pending := by
    intro o ho
    rcases List.mem_map.1 ho with ⟨o', _, rfl⟩
    rfl
  have hl' : l = batch.map setPending := by
    simp only [fetchOrders] at hl
    by_cases hlen : (batch.map setPending).length > 0
    · rw [if_pos hlen] at hl
      rcases hins : ins (batch.map setPending) with e | u <;> rw [hins] at hl
      · simpa using hl
      · rcases gp with e | p <;> simpa using hl
    · rw [if_neg hlen] at hl
      rcases gp with e | p <;> simp at hl
  exact ⟨hl', hl' ▸ hstamp⟩

/-- C5 witness: a pulled order arriving with status Complete is inserted
with status Pending. -/
theorem C5_stamp_pending_witness :
    [(⟨"1", Status.pending, "p"⟩ : Order)] =
        [(⟨"1", Status.complete, "p"⟩ : Order)].map setPending ∧
      ∀ o ∈ [(⟨"1", Status.pending, "p"⟩ : Order)], o.status = Status.pending :=
  C5_stamp_pending [⟨"1", Status.complete, "p"⟩] insertRepoOk (.ok [])
    [⟨"1", Status.pending, "p"⟩] (by decide)

/-- C6: for every GET /order/fetch invocation in which the queue poll, any
needed insert, and the pending lookup succeed, the handler calls
GetPendingOrders and returns its full result with HTTP 200, regardless
of whether the pulled batch was empty. -/
theorem C6_fetch_returns_pending :
    ∀ (batch pendingOrders : List Order) (ins : List Order → Except RepoError Unit),
      ins (batch.map setPending) = .ok () →
      fetchOrders (.ok batch) ins (.ok pendingOrders) =
        (.okOrders pendingOrders,
         ⟨if batch.length > 0 then [batch.map setPending] else [], true⟩) := by
  intro batch pendingOrders ins hins
  simp only [fetchOrders]
  by_cases hlen : (batch.map setPending).length > 0
  · rw [if_pos hlen, hins]
    simp only [List.length_map] at hlen
    rw [if_pos hlen]
  · rw [if_neg hlen]
    simp only [List.length_map] at hlen
    rw [if_neg hlen]

/-- C6 witness: with a one-order batch whose insert succeeds, the handler
returns 200 with exactly the pending list the repository reports. -/
theorem C6_fetch_returns_pending_witness :
    fetchOrders (.ok [⟨"1", Status.new, "p"⟩]) insertRepoOk
        (.ok [⟨"1", Status.pending, "p"⟩, ⟨"2", Status.pending, "q"⟩]) =
      (.okOrders [⟨"1", Status.pending, "p"⟩, ⟨"2", Status.pending, "q"⟩],
       ⟨[[⟨"1", Status.pending, "p"⟩]], true⟩) := by
  have h := C6_fetch_returns_pending [⟨"1", Status.new, "p"⟩]
    [⟨"1", Status.pending, "p"⟩, ⟨"2", Status.pending, "q"⟩] insertRepoOk rfl
  simpa using h

/-- C7: for every GET /order/fetch invocation with a non-empty pulled
batch, InsertOrders is called exactly once with the whole stamped batch,
and an insert error is fatal: the handler returns 500 and GetPendingOrders
is never called; with an empty batch, InsertOrders is not called at all. -/
theorem C7_insert_once_fatal :
    (∀ (batch : List Order) (ins : List Order → Except RepoError Unit)
       (gp : Except RepoError (List Order)),
      batch ≠ [] →
      (fetchOrders (.ok batch) ins gp).2.inserts = [batch.map setPending]) ∧
    (∀ (batch : List Order) (ins : List Order → Except RepoError Unit)
       (gp : Except RepoError (List Order)) (e : RepoError),
      batch ≠ [] → ins (batch.map setPending) = .error e →
      fetchOrders (.ok batch) ins gp =
        (.status 500, ⟨[batch.map setPending], false⟩)) ∧
    (∀ (ins : List Order → Except RepoError Unit)
       (gp : Except RepoError (List Order)),
      (fetchOrders (.ok []) ins gp).2.inserts = []) := by
  refine ⟨?_, ?_, ?_⟩
  · intro batch ins gp hne
    have hlen : (batch.map setPending).length > 0 := by
      simpa [List.length_pos] using hne
    simp only [fetchOrders]
    rw [if_pos hlen]
    rcases hins : ins (batch.map setPending) with e | u
    · rfl
    · rcases gp with e | p <;> rfl
  · intro batch ins gp e hne hins
    have hlen : (batch.map setPending).length > 0 := by
      simpa [List.length_pos] using hne
    simp only [fetchOrders]
    rw [if_pos hlen, hins]
  · intro ins gp
    simp only [fetchOrders]
    rcases gp with e | p <;> rfl

/-- C7 witness: a failing insert on a one-order batch aborts the request
with 500, the batch having been passed to insert once and the pending
lookup never made. -/
theorem C7_insert_once_fatal_witness :
    fetchOrders (.ok [⟨"1", Status.new, "p"⟩]) insertRepoErr (.ok []) =
      (.status 500, ⟨[[⟨"1", Status.pending, "p"⟩]], false⟩) := by
  have h := C7_insert_once_fatal.2.1 [⟨"1", Status.new, "p"⟩] insertRepoErr
    (.ok []) RepoError.other (by decide) rfl
  simpa using h

/-- Helper: insertOne never fails and leaves the store unchanged on a
duplicate key, appending otherwise. -/
theorem insertOne_eq (store : List Order) (o : Order) :
    insertOne store o =
      .ok (if store.any (fun s => s.orderID = o.orderID) = true then store
           else store ++ [o]) := by
  unfold insertOne rawInsert
  by_cases h : store.any (fun s => s.orderID = o.orderID) = true
  · simp [h]
  · simp [h]

/-- Helper: countId on the empty store. -/
theorem countId_nil (id : String) : countId [] id = 0 := rfl

/-- Helper: countId on a cons cell. -/
theorem countId_cons (a : Order) (store : List Order) (id : String) :
    countId (a :: store) id =
      (if a.orderID = id then 1 else 0) + countId store id := by
  by_cases h : a.orderID = id <;> simp [countId, List.filter_cons, h, Nat.add_comm]

/-- Helper: the duplicate-key probe answers membership of the id among the
stored ids. -/
theorem any_id_iff (store : List Order) (id : String) :
    store.any (fun s => s.orderID = id) = true ↔ id ∈ store.map Order.orderID := by
  simp only [List.any_eq_true, List.mem_map, decide_eq_true_eq]

/-- Helper: an id absent from the stored ids has count zero. -/
theorem countId_eq_zero_of_not_mem (store : List Order) (id : String)
    (h : id ∉ store.map Order.orderID) : countId store id = 0 := by
  induction store with
  | nil => rfl
  | cons a rest ih =>
    simp only [List.map_cons, List.mem_cons, not_or] at h
    rw [countId_cons, if_neg (fun ha => h.1 ha.symm), ih h.2]

/-- Helper: under the no-duplicate invariant every id has count at most
one. -/
theorem countId_le_one_of_nodup (store : List Order) :
    nodupIds store → ∀ id, countId store id ≤ 1 := by
  induction store with
  | nil => intro _ id; simp [countId_nil]
  | cons a rest ih =>
    intro hs id
    simp only [nodupIds, List.map_cons, List.nodup_cons] at hs
    by_cases hid : a.orderID = id
    · rw [countId_cons, if_pos hid]
      have h0 : countId rest id = 0 :=
        countId_eq_zero_of_not_mem rest id (hid ▸ hs.1)
      omega
    · rw [countId_cons, if_neg hid]
      have h1 := ih hs.2 id
      omega

/-- Helper: a stored id has positive count. -/
theorem countId_pos_of_mem (store : List Order) (id : String)
    (h : id ∈ store.map Order.orderID) : 0 < countId store id := by
  induction store with
  | nil => simp at h
  | cons a rest ih =>
    simp only [List.map_cons, List.mem_cons] at h
    by_cases hid : a.orderID = id
    · rw [countId_cons, if_pos hid]; omega
    · rw [countId_cons, if_neg hid]
      rcases h with h | h
      · exact absurd h.symm hid
      · have := ih h
        omega

/-- Helper: one idempotent insert step preserves the no-duplicate
invariant. -/
theorem nodupIds_insertOneResult (store : List Order) (o : Order)
    (hs : nodupIds store) :
    nodupIds (if store.any (fun s => s.orderID = o.orderID) = true then store
              else store ++ [o]) := by
  by_cases h : store.any (fun s => s.orderID = o.orderID) = true
  · rw [if_pos h]; exact hs
  · rw [if_neg h]
    have hnm : o.orderID ∉ store.map Order.orderID := by
      intro hm
      exact h ((any_id_iff store o.orderID).2 hm)
    simp only [nodupIds, List.map_append, List.map_cons, List.map_nil] at *
    simp [List.nodup_append, hs, hnm]

/-- Helper: a successful bulk insert preserves the no-duplicate
invariant. -/
theorem insertOrders_nodup (orders : List Order) :
    ∀ store result : List Order, nodupIds store →
      insertOrders store orders = .ok result → nodupIds result := by
  induction orders with
  | nil =>
    intro store result hs h
    simp only [insertOrders, Except.ok.injEq] at h
    exact h ▸ hs
  | cons o rest ih =>
    intro store result hs h
    simp only [insertOrders, insertOne_eq] at h
    exact ih _ result (nodupIds_insertOneResult store o hs) h

/-- C1: on the spec-modelled backend repository, a successful insertOrders
call preserves the at-most-one-record-per-orderId invariant, and calling
insertOrders twice with an order carrying the same orderId succeeds both
times (the duplicate-key condition is success-with-no-op) and leaves
exactly one stored record with that orderId. -/
theorem C1_insert_idempotent :
    (∀ (store orders result : List Order),
      nodupIds store → insertOrders store orders = .ok result →
      nodupIds result ∧ atMostOnePerId result) ∧
    (∀ (store : List Order) (o : Order), nodupIds store →
      ∃ s1 s2 : List Order,
        insertOrders store [o] = .ok s1 ∧
        insertOrders s1 [o] = .ok s2 ∧
        countId s2 o.orderID = 1 ∧ atMostOnePerId s2) := by
  constructor
  · intro store orders result hs h
    have hr := insertOrders_nodup orders store result hs h
    exact ⟨hr, countId_le_one_of_nodup result hr⟩
  · intro store o hs
    have h1 : insertOrders store [o] =
        .ok (if store.any (fun s => s.orderID = o.orderID) = true then store
             else store ++ [o]) := by
      simp only [insertOrders, insertOne_eq]
    set s1 := if store.any (fun s => s.orderID = o.orderID) = true then store
              else store ++ [o] with hs1
    have hmem : o.orderID ∈ s1.map Order.orderID := by
      by_cases h : store.any (fun s => s.orderID = o.orderID) = true
      · rw [hs1, if_pos h]; exact (any_id_iff store o.orderID).1 h
      · rw [hs1, if_neg h]; simp
    have hany1 : s1.any (fun s => s.orderID = o.orderID) = true :=
      (any_id_iff s1 o.orderID).2 hmem
    have h2 : insertOrders s1 [o] = .ok s1 := by
      simp only [insertOrders, insertOne_eq, if_pos hany1]
    have hnd1 : nodupIds s1 := nodupIds_insertOneResult store o hs
    have hcount : countId s1 o.orderID = 1 := by
      have hle := countId_le_one_of_nodup s1 hnd1 o.orderID
      have hpos := countId_pos_of_mem s1 o.orderID hmem
      omega
    exact ⟨s1, s1, h1, h2, hcount, countId_le_one_of_nodup s1 hnd1⟩

/-- C1 witness: inserting the same order twice into an empty store succeeds
both times and leaves exactly one record with its orderId. -/
theorem C1_insert_idempotent_witness :
    ∃ s1 s2 : List Order,
      insertOrders [] [⟨"1", Status.pending, "p"⟩] = .ok s1 ∧
      insertOrders s1 [⟨"1", Status.pending, "p"⟩] = .ok s2 ∧
      countId s2 "1" = 1 ∧ atMostOnePerId s2 :=
  C1_insert_idempotent.2 [] ⟨"1", Status.pending, "p"⟩ (by decide)

end Makeline
